import Mathlib

/-!
# Verification of the Aktuelt merge pipeline (`scraper/build_aktuelt_combined.py`, `scraper/scrape.py`)

A shallow embedding of the normalization-and-merge pipeline that combines
the Fauske kommune news feed with the Fauske Næringsforum news feed, plus
the free-text Norwegian date parser of `scraper/scrape.py`.

Modelling conventions:
* JSON-decoded Python values are the inductive `PyVal`; `dict.get` with its
  `None` default is `pyGet`, Python truthiness is `pyTruthy`, `x or y` is `pyOr`.
* Python exceptions that escape a function are `Except.error ()`; a function
  that catches everything is total and returns `Option`/plain values.
* The modelled JSON fragment covers null/booleans/integers/strings/arrays/objects
  (the shapes this repository's data files use); float literals are outside the
  modelled fragment.  `str.lower` is modelled as ASCII lowercasing and digit
  parsing as ASCII digits.
* `datetime.fromisoformat` is modelled on naive datetimes in the
  inverse-of-isoformat grammar `YYYY-MM-DD[sep HH[:MM[:SS[.fff[fff]]]]]`;
  strings carrying a UTC offset are outside the modelled fragment.
* `datetime.strptime` with the formats `%d.%m.%Y` and `%Y-%m-%d` is modelled by
  the exact regular expressions CPython builds for those directives
  (`3[01]|[12]\d|0[1-9]|[1-9]` for `%d`, `1[0-2]|0[1-9]|[1-9]` for `%m`,
  four digits for `%Y`), a full match being followed by calendar validation.
-/

/-- A JSON-decoded Python value (`json.loads` output), as used by the pipeline. -/
inductive PyVal where
  | null : PyVal
  | bool : Bool → PyVal
  | int : Int → PyVal
  | str : String → PyVal
  | arr : List PyVal → PyVal
  | obj : List (String × PyVal) → PyVal
deriving Repr

mutual

/-- Decidable equality for `PyVal` (Python `==` restricted to these shapes). -/
def PyVal.beq : PyVal → PyVal → Bool
  | .null, .null => true
  | .bool a, .bool b => a == b
  | .int a, .int b => a == b
  | .str a, .str b => a == b
  | .arr a, .arr b => PyVal.beqList a b
  | .obj a, .obj b => PyVal.beqFields a b
  | _, _ => false

def PyVal.beqList : List PyVal → List PyVal → Bool
  | [], [] => true
  | a :: as, b :: bs => PyVal.beq a b && PyVal.beqList as bs
  | _, _ => false

def PyVal.beqFields : List (String × PyVal) → List (String × PyVal) → Bool
  | [], [] => true
  | (k, a) :: as, (l, b) :: bs => k == l && PyVal.beq a b && PyVal.beqFields as bs
  | _, _ => false

end

mutual

theorem PyVal.beq_iff : ∀ a b : PyVal, PyVal.beq a b = true ↔ a = b
  | .null, .null => by simp [PyVal.beq]
  | .bool a, .bool b => by simp [PyVal.beq]
  | .int a, .int b => by simp [PyVal.beq]
  | .str a, .str b => by simp [PyVal.beq]
  | .arr a, .arr b => by
      simp only [PyVal.beq, PyVal.beqList_iff a b, PyVal.arr.injEq]
  | .obj a, .obj b => by
      simp only [PyVal.beq, PyVal.beqFields_iff a b, PyVal.obj.injEq]
  | .null, .bool _ | .null, .int _ | .null, .str _ | .null, .arr _ | .null, .obj _
  | .bool _, .null | .bool _, .int _ | .bool _, .str _ | .bool _, .arr _ | .bool _, .obj _
  | .int _, .null | .int _, .bool _ | .int _, .str _ | .int _, .arr _ | .int _, .obj _
  | .str _, .null | .str _, .bool _ | .str _, .int _ | .str _, .arr _ | .str _, .obj _
  | .arr _, .null | .arr _, .bool _ | .arr _, .int _ | .arr _, .str _ | .arr _, .obj _
  | .obj _, .null | .obj _, .bool _ | .obj _, .int _ | .obj _, .str _ | .obj _, .arr _ => by
      simp [PyVal.beq]

theorem PyVal.beqList_iff : ∀ a b : List PyVal, PyVal.beqList a b = true ↔ a = b
  | [], [] => by simp [PyVal.beqList]
  | a :: as, b :: bs => by
      simp [PyVal.beqList, PyVal.beq_iff a b, PyVal.beqList_iff as bs]
  | [], _ :: _ => by simp [PyVal.beqList]
  | _ :: _, [] => by simp [PyVal.beqList]

theorem PyVal.beqFields_iff :
    ∀ a b : List (String × PyVal), PyVal.beqFields a b = true ↔ a = b
  | [], [] => by simp [PyVal.beqFields]
  | (k, a) :: as, (l, b) :: bs => by
      simp [PyVal.beqFields, PyVal.beq_iff a b, PyVal.beqFields_iff as bs, and_assoc]
  | [], _ :: _ => by simp [PyVal.beqFields]
  | _ :: _, [] => by simp [PyVal.beqFields]

end

instance : DecidableEq PyVal := fun a b =>
  decidable_of_iff (PyVal.beq a b = true) (PyVal.beq_iff a b)

/-- Python truthiness (`bool(v)`) of a JSON-decoded value. -/
def pyTruthy : PyVal → Bool
  | .null => false
  | .bool b => b
  | .int n => n != 0
  | .str s => s != ""
  | .arr l => !l.isEmpty
  | .obj f => !f.isEmpty

/-- Python `x or y` (returns the first truthy operand, else the last). -/
def pyOr (a b : PyVal) : PyVal := if pyTruthy a then a else b

/-- The value stored for key `k`: a later duplicate key overrides an earlier
one, matching how `json.loads` builds a Python `dict`. -/
def lookupLast (fields : List (String × PyVal)) (key : String) : Option PyVal :=
  match fields with
  | [] => none
  | (k, v) :: rest =>
    match lookupLast rest key with
    | some w => some w
    | none => if k = key then some v else none

/-- Python `d.get(key)` with its default of `None`. -/
def pyGet (fields : List (String × PyVal)) (key : String) : PyVal :=
  (lookupLast fields key).getD .null

/-! ## Character and string helpers -/

/-- Python whitespace stripped by `str.strip()` / split on by `str.split()`
(ASCII portion). -/
def isPyWs (c : Char) : Bool :=
  c = ' ' || c = '\t' || c = '\n' || c = '\x0d' || c = '\x0b' || c = '\x0c'

/-- ASCII digit test (`'0' ≤ c ≤ '9'` by code point). -/
def isDigitChar (c : Char) : Bool := 48 ≤ c.toNat && c.toNat ≤ 57

/-- The numeric value of an ASCII digit. -/
def digitVal (c : Char) : Nat := c.toNat - 48

/-- `str.strip()` on the character list. -/
def stripChars (cs : List Char) : List Char :=
  ((cs.dropWhile isPyWs).reverse.dropWhile isPyWs).reverse

/-- Python `s.strip()`. -/
def pyStrip (s : String) : String := String.mk (stripChars s.toList)

/-- Accumulator-based splitter behind `pySplitWs`: `acc` holds the current
token's characters in reverse. -/
def splitWsAux : List Char → List Char → List String
  | [], acc => if acc.isEmpty then [] else [String.mk acc.reverse]
  | c :: rest, acc =>
    if isPyWs c then
      if acc.isEmpty then splitWsAux rest []
      else String.mk acc.reverse :: splitWsAux rest []
    else splitWsAux rest (c :: acc)

/-- Python `s.split()` (split on whitespace runs, no empty tokens). -/
def pySplitWs (s : String) : List String := splitWsAux s.toList []

/-- Python `s.rstrip(set)`: drop all trailing characters belonging to `set`. -/
def rstripChar (p : Char → Bool) (s : String) : String :=
  String.mk (s.toList.reverse.dropWhile p).reverse

/-- Python `s.lower()` restricted to ASCII letters. -/
def asciiLower (s : String) : String :=
  String.mk (s.toList.map fun c =>
    if 'A' ≤ c && c ≤ 'Z' then Char.ofNat (c.toNat + 32) else c)

/-- The part of `s` after its last `/` (Python `s.rsplit("/", 1)[-1]`);
`s` itself when there is no slash. -/
def lastSegment (s : String) : String :=
  String.mk ((s.toList.reverse.takeWhile (fun c => c ≠ '/')).reverse)

/-- Python `s[:10]`. -/
def firstTen (s : String) : String := String.mk (s.toList.take 10)

/-! ## Python `int(str)` -/

/-- Digits possibly separated by single underscores, as accepted by
Python's `int` (`d(_?d)*`); returns the value. -/
def pyIntDigits (first : Char) (cs : List Char) : Option Nat :=
  if !isDigitChar first then none
  else go (digitVal first) cs
where
  go (acc : Nat) : List Char → Option Nat
    | [] => some acc
    | '_' :: d :: rest =>
        if isDigitChar d then go (acc * 10 + digitVal d) rest else none
    | d :: rest =>
        if isDigitChar d then go (acc * 10 + digitVal d) rest else none

/-- Python `int(s)` for ASCII strings: strip whitespace, optional sign,
digits with optional single underscore separators; `none` when `int`
raises `ValueError`. -/
def pyInt (s : String) : Option Int :=
  match stripChars s.toList with
  | [] => none
  | '+' :: c :: rest => (pyIntDigits c rest).map Int.ofNat
  | '-' :: c :: rest => (pyIntDigits c rest).map (fun n => -(Int.ofNat n))
  | c :: rest => (pyIntDigits c rest).map Int.ofNat

/-! ## Dates and datetimes -/

/-- Gregorian leap year, as `datetime` uses. -/
def isLeap (y : Nat) : Bool := (y % 4 = 0 && y % 100 ≠ 0) || y % 400 = 0

def daysInMonth (y m : Nat) : Nat :=
  if m = 2 then (if isLeap y then 29 else 28)
  else if m = 4 || m = 6 || m = 9 || m = 11 then 30
  else 31

/-- A validated `datetime.date`. -/
structure Date where
  year : Nat
  month : Nat
  day : Nat
deriving DecidableEq, Repr

/-- The `datetime.date(year, month, day)` constructor: validates
`MINYEAR ≤ year ≤ MAXYEAR`, `1 ≤ month ≤ 12`, `1 ≤ day ≤ days_in_month`,
raising `ValueError` (here `none`) otherwise. -/
def mkDate (y m d : Int) : Option Date :=
  if _h : 1 ≤ y ∧ y ≤ 9999 ∧ 1 ≤ m ∧ m ≤ 12 ∧ 1 ≤ d ∧
      d ≤ (daysInMonth y.toNat m.toNat : Int) then
    some ⟨y.toNat, m.toNat, d.toNat⟩
  else none

/-- A (naive) `datetime.datetime` value. -/
structure PyDatetime where
  year : Nat
  month : Nat
  day : Nat
  hour : Nat
  minute : Nat
  second : Nat
  usec : Nat
deriving DecidableEq, Repr

/-- `datetime.min` = 0001-01-01 00:00:00. -/
def dtMin : PyDatetime := ⟨1, 1, 1, 0, 0, 0, 0⟩

def dateAtMidnight (d : Date) : PyDatetime := ⟨d.year, d.month, d.day, 0, 0, 0, 0⟩

def PyDatetime.date (dt : PyDatetime) : Date := ⟨dt.year, dt.month, dt.day⟩

/-- Order-preserving numeric encoding of a datetime whose fields are in
their `datetime` ranges; datetime comparison is comparison of these. -/
def dtKey (dt : PyDatetime) : Nat :=
  ((((((dt.year * 13 + dt.month) * 32 + dt.day) * 24 + dt.hour) * 60 +
      dt.minute) * 60 + dt.second) * 1000000 + dt.usec)

/-- `datetime <` as used by Python's sort (on in-range values). -/
def dtLt (a b : PyDatetime) : Bool := dtKey a < dtKey b

/-- `date.isoformat()` for `1 ≤ y ≤ 9999`: the ten characters
`YYYY-MM-DD`, zero padded. -/
def isoOfYMD (y m d : Nat) : String :=
  String.mk [Char.ofNat (48 + y / 1000 % 10), Char.ofNat (48 + y / 100 % 10),
    Char.ofNat (48 + y / 10 % 10), Char.ofNat (48 + y % 10), '-',
    Char.ofNat (48 + m / 10 % 10), Char.ofNat (48 + m % 10), '-',
    Char.ofNat (48 + d / 10 % 10), Char.ofNat (48 + d % 10)]

def Date.isoformat (d : Date) : String := isoOfYMD d.year d.month d.day

/-- `s` is a valid zero-padded ISO `YYYY-MM-DD` calendar date string. -/
def IsIsoDateString (s : String) : Prop :=
  ∃ y m d : Nat, 1 ≤ y ∧ y ≤ 9999 ∧ 1 ≤ m ∧ m ≤ 12 ∧ 1 ≤ d ∧
    d ≤ daysInMonth y m ∧ s = isoOfYMD y m d

/-! ## `datetime.strptime` with `%d.%m.%Y` and `%Y-%m-%d`

CPython compiles `%d` to `3[01]|[12]\d|0[1-9]|[1-9]` (two-digit branches
first), `%m` to `1[0-2]|0[1-9]|[1-9]` and `%Y` to four digits; the whole
string must be consumed, and the matched numbers are then validated by the
`datetime` constructor. -/

/-- The two-digit `%d` branches: a two-digit day 01–31. -/
def day2Val (a b : Char) : Option Nat :=
  if isDigitChar a && isDigitChar b then
    let n := digitVal a * 10 + digitVal b
    if 1 ≤ n && n ≤ 31 then some n else none
  else none

/-- The one-digit `%d` branch `[1-9]`. -/
def day1Val (a : Char) : Option Nat :=
  if isDigitChar a && a ≠ '0' then some (digitVal a) else none

/-- The two-digit `%m` branches: a two-digit month 01–12. -/
def month2Val (a b : Char) : Option Nat :=
  if isDigitChar a && isDigitChar b then
    let n := digitVal a * 10 + digitVal b
    if 1 ≤ n && n ≤ 12 then some n else none
  else none

/-- The one-digit `%m` branch `[1-9]`. -/
def month1Val (a : Char) : Option Nat :=
  if isDigitChar a && a ≠ '0' then some (digitVal a) else none

/-- `%Y`: exactly four digits. -/
def year4Val (a b c d : Char) : Option Nat :=
  if isDigitChar a && isDigitChar b && isDigitChar c && isDigitChar d then
    some (digitVal a * 1000 + digitVal b * 100 + digitVal c * 10 + digitVal d)
  else none

def dmy22 : List Char → Option (Nat × Nat × Nat)
  | [a, b, '.', c, d, '.', e, f, g, h] => do
      let dd ← day2Val a b
      let mm ← month2Val c d
      let yy ← year4Val e f g h
      some (dd, mm, yy)
  | _ => none

def dmy21 : List Char → Option (Nat × Nat × Nat)
  | [a, b, '.', c, '.', e, f, g, h] => do
      let dd ← day2Val a b
      let mm ← month1Val c
      let yy ← year4Val e f g h
      some (dd, mm, yy)
  | _ => none

def dmy12 : List Char → Option (Nat × Nat × Nat)
  | [a, '.', c, d, '.', e, f, g, h] => do
      let dd ← day1Val a
      let mm ← month2Val c d
      let yy ← year4Val e f g h
      some (dd, mm, yy)
  | _ => none

def dmy11 : List Char → Option (Nat × Nat × Nat)
  | [a, '.', c, '.', e, f, g, h] => do
      let dd ← day1Val a
      let mm ← month1Val c
      let yy ← year4Val e f g h
      some (dd, mm, yy)
  | _ => none

/-- The full-match regex for `%d.%m.%Y`, alternatives in backtracking order;
returns `(day, month, year)`. -/
def regexDMY (cs : List Char) : Option (Nat × Nat × Nat) :=
  dmy22 cs <|> dmy21 cs <|> dmy12 cs <|> dmy11 cs

/-- `datetime.strptime(s, "%d.%m.%Y")`, `none` for `ValueError`. -/
def strptimeDMY (s : String) : Option Date :=
  match regexDMY s.toList with
  | some (dd, mm, yy) => mkDate yy mm dd
  | none => none

def ymd22 : List Char → Option (Nat × Nat × Nat)
  | [a, b, c, d, '-', e, f, '-', g, h] => do
      let yy ← year4Val a b c d
      let mm ← month2Val e f
      let dd ← day2Val g h
      some (yy, mm, dd)
  | _ => none

def ymd21 : List Char → Option (Nat × Nat × Nat)
  | [a, b, c, d, '-', e, f, '-', g] => do
      let yy ← year4Val a b c d
      let mm ← month2Val e f
      let dd ← day1Val g
      some (yy, mm, dd)
  | _ => none

def ymd12 : List Char → Option (Nat × Nat × Nat)
  | [a, b, c, d, '-', e, '-', g, h] => do
      let yy ← year4Val a b c d
      let mm ← month1Val e
      let dd ← day2Val g h
      some (yy, mm, dd)
  | _ => none

def ymd11 : List Char → Option (Nat × Nat × Nat)
  | [a, b, c, d, '-', e, '-', g] => do
      let yy ← year4Val a b c d
      let mm ← month1Val e
      let dd ← day1Val g
      some (yy, mm, dd)
  | _ => none

/-- The full-match regex for `%Y-%m-%d`; returns `(year, month, day)`. -/
def regexYMD (cs : List Char) : Option (Nat × Nat × Nat) :=
  ymd22 cs <|> ymd21 cs <|> ymd12 cs <|> ymd11 cs

/-- `datetime.strptime(s, "%Y-%m-%d")`, `none` for `ValueError`. -/
def strptimeYMD (s : String) : Option Date :=
  match regexYMD s.toList with
  | some (yy, mm, dd) => mkDate yy mm dd
  | none => none

/-! ## `datetime.fromisoformat` -/

/-- The fractional-second part: exactly three or six digits. -/
def fracVal : List Char → Option Nat
  | [a, b, c] =>
      if isDigitChar a && isDigitChar b && isDigitChar c then
        some ((digitVal a * 100 + digitVal b * 10 + digitVal c) * 1000)
      else none
  | [a, b, c, d, e, f] =>
      if isDigitChar a && isDigitChar b && isDigitChar c &&
          isDigitChar d && isDigitChar e && isDigitChar f then
        some (digitVal a * 100000 + digitVal b * 10000 + digitVal c * 1000 +
          digitVal d * 100 + digitVal e * 10 + digitVal f)
      else none
  | _ => none

def twoDigits (a b : Char) : Option Nat :=
  if isDigitChar a && isDigitChar b then some (digitVal a * 10 + digitVal b) else none

/-- The time tail `HH[:MM[:SS[.fff[fff]]]]` of an isoformat string;
returns `(hour, minute, second, usec)` before range validation. -/
def isoTimePart : List Char → Option (Nat × Nat × Nat × Nat)
  | [a, b] => do
      let hh ← twoDigits a b
      some (hh, 0, 0, 0)
  | [a, b, ':', c, d] => do
      let hh ← twoDigits a b
      let mm ← twoDigits c d
      some (hh, mm, 0, 0)
  | [a, b, ':', c, d, ':', e, f] => do
      let hh ← twoDigits a b
      let mm ← twoDigits c d
      let ss ← twoDigits e f
      some (hh, mm, ss, 0)
  | a :: b :: ':' :: c :: d :: ':' :: e :: f :: '.' :: fs => do
      let hh ← twoDigits a b
      let mm ← twoDigits c d
      let ss ← twoDigits e f
      let us ← fracVal fs
      some (hh, mm, ss, us)
  | _ => none

/-- `datetime.fromisoformat(s)` (naive datetimes, the inverse-of-isoformat
grammar `YYYY-MM-DD[sep HH[:MM[:SS[.fff[fff]]]]]`, where `sep` is any single
character); `none` when it raises. -/
def fromisoList : List Char → Option PyDatetime
  | a :: b :: c :: d :: '-' :: e :: f :: '-' :: g :: h :: rest => do
      let yy ← year4Val a b c d
      let mm ← twoDigits e f
      let dd ← twoDigits g h
      let date ← mkDate yy mm dd
      match rest with
      | [] => some (dateAtMidnight date)
      | _sep :: timeCs => do
          let (hh, mi, ss, us) ← isoTimePart timeCs
          if hh ≤ 23 && mi ≤ 59 && ss ≤ 59 then
            some ⟨date.year, date.month, date.day, hh, mi, ss, us⟩
          else none
  | _ => none

/-- `datetime.fromisoformat(s)` (see `fromisoList`). -/
def fromisoformat (s : String) : Option PyDatetime := fromisoList s.toList

/-! ## The repository's date functions -/

/-- `parse_date_fauskenf` of `scraper/build_aktuelt_combined.py` on an
actual string: try `strptime(s.strip(), "%d.%m.%Y")`, on `ValueError` fall
back to `fromisoformat(s.strip()).date().isoformat()`, and return `None`
when both fail.  (The `if not date_str` guard makes `""` return `None`.) -/
def parse_date_fauskenf (dateStr : String) : Option String :=
  if dateStr = "" then none
  else
    match strptimeDMY (pyStrip dateStr) with
    | some d => some d.isoformat
    | none =>
      match fromisoformat (pyStrip dateStr) with
      | some dt => some dt.date.isoformat
      | none => none

/-- `parse_date_fauskenf` on the JSON value found under `"date"`: a falsy
value returns `None`; a truthy non-string raises `AttributeError` at
`date_str.strip()`, which only `ValueError`/the second `Exception` handler
would catch, so it escapes. -/
def parse_date_fauskenf_py (v : PyVal) : Except Unit (Option String) :=
  if !pyTruthy v then .ok none
  else
    match v with
    | .str s => .ok (parse_date_fauskenf s)
    | _ => .error ()

/-- `parse_date_sortkey` of `scraper/build_aktuelt_combined.py` on an actual
string: `fromisoformat(s)` first, then `strptime(s[:10], "%Y-%m-%d")`, then
`strptime(s.strip(), "%d.%m.%Y")`, else `datetime.min`. -/
def parse_date_sortkey_str (s : String) : PyDatetime :=
  match fromisoformat s with
  | some dt => dt
  | none =>
    match strptimeYMD (firstTen s) with
    | some d => dateAtMidnight d
    | none =>
      match strptimeDMY (pyStrip s) with
      | some d => dateAtMidnight d
      | none => dtMin

/-- `parse_date_sortkey` on the JSON value stored under `"published"`.
A falsy value returns `datetime.min`; on a truthy non-string every one of
the three attempts raises an exception that its `except Exception` handler
catches, so the result is again `datetime.min`. -/
def parse_date_sortkey (v : PyVal) : PyDatetime :=
  if !pyTruthy v then dtMin
  else
    match v with
    | .str s => parse_date_sortkey_str s
    | _ => dtMin

/-- The `NORWEGIAN_MONTHS` table of `scraper/scrape.py`. -/
def norwegianMonth : String → Option Nat
  | "januar" => some 1
  | "februar" => some 2
  | "mars" => some 3
  | "april" => some 4
  | "mai" => some 5
  | "juni" => some 6
  | "juli" => some 7
  | "august" => some 8
  | "september" => some 9
  | "oktober" => some 10
  | "november" => some 11
  | "desember" => some 12
  | _ => none

/-- `parse_date` of `scraper/scrape.py`: split the stripped text on
whitespace, read the first three tokens as day (trailing periods stripped),
Norwegian month name, and year, and return the ISO date; `None` on any
failure (all exceptions are caught). -/
def parse_date (dateStr : String) : Option String :=
  if dateStr = "" then none
  else
    match pySplitWs (pyStrip dateStr) with
    | dayPart :: monthPart :: yearPart :: _ =>
      match pyInt (rstripChar (· = '.') dayPart), pyInt yearPart with
      | some day, some year =>
        match norwegianMonth (asciiLower monthPart) with
        | some month =>
          match mkDate year month day with
          | some d => some d.isoformat
          | none => none
        | none => none
      | _, _ => none
    | _ => none

/-! ## `json.loads`

A model of `json.loads` on the fragment the pipeline's data files use:
null, booleans, integers, strings, arrays, objects.  Float literals,
`NaN`/`Infinity` and surrogate escapes are outside the modelled fragment.
Nesting depth is bounded by a fuel argument, as CPython's recursive parser
is bounded by the interpreter recursion limit. -/

def braceL : Char := Char.ofNat 123

def braceR : Char := Char.ofNat 125

/-- JSON whitespace (the four characters `json` skips). -/
def jsonSkipWs : List Char → List Char
  | c :: rest =>
      if c = ' ' || c = '\t' || c = '\n' || c = '\x0d' then jsonSkipWs rest
      else c :: rest
  | [] => []

/-- The value of one hexadecimal digit (for `\uXXXX` escapes), by code
point: `0`–`9`, `a`–`f`, `A`–`F`. -/
def hexVal (c : Char) : Option Nat :=
  if isDigitChar c then some (digitVal c)
  else if 97 ≤ c.toNat && c.toNat ≤ 102 then some (c.toNat - 87)
  else if 65 ≤ c.toNat && c.toNat ≤ 70 then some (c.toNat - 55)
  else none

/-- The body of a JSON string literal (the opening quote already consumed);
returns the decoded characters and the input after the closing quote. -/
def parseStrLit : List Char → Option (List Char × List Char)
  | '"' :: rest => some ([], rest)
  | '\\' :: '"' :: rest => (parseStrLit rest).map fun p => ('"' :: p.1, p.2)
  | '\\' :: '\\' :: rest => (parseStrLit rest).map fun p => ('\\' :: p.1, p.2)
  | '\\' :: '/' :: rest => (parseStrLit rest).map fun p => ('/' :: p.1, p.2)
  | '\\' :: 'b' :: rest => (parseStrLit rest).map fun p => ('\x08' :: p.1, p.2)
  | '\\' :: 'f' :: rest => (parseStrLit rest).map fun p => ('\x0c' :: p.1, p.2)
  | '\\' :: 'n' :: rest => (parseStrLit rest).map fun p => ('\n' :: p.1, p.2)
  | '\\' :: 'r' :: rest => (parseStrLit rest).map fun p => ('\x0d' :: p.1, p.2)
  | '\\' :: 't' :: rest => (parseStrLit rest).map fun p => ('\t' :: p.1, p.2)
  | '\\' :: 'u' :: h1 :: h2 :: h3 :: h4 :: rest =>
      match hexVal h1, hexVal h2, hexVal h3, hexVal h4 with
      | some a, some b, some c, some d =>
        let n := ((a * 16 + b) * 16 + c) * 16 + d
        if n < 0xd800 || 0xe000 ≤ n then
          (parseStrLit rest).map fun p => (Char.ofNat n :: p.1, p.2)
        else none
      | _, _, _, _ => none
  | '\\' :: _ => none
  | c :: rest =>
      if c.toNat ≥ 32 then (parseStrLit rest).map fun p => (c :: p.1, p.2)
      else none
  | [] => none

/-- A JSON integer literal `-?(0|[1-9][0-9]*)`, rejecting a following
`.`/`e`/`E` (float literals are outside the modelled fragment). -/
def parseJsonInt (cs : List Char) : Option (Int × List Char) :=
  match cs with
  | '-' :: rest => (go rest).map fun p => (-(p.1 : Int), p.2)
  | _ => (go cs).map fun p => ((p.1 : Int), p.2)
where
  go : List Char → Option (Nat × List Char)
    | '0' :: rest => noFloat 0 rest
    | c :: rest =>
        if isDigitChar c && c ≠ '0' then
          let ds := rest.takeWhile isDigitChar
          noFloat (ds.foldl (fun acc d => acc * 10 + digitVal d) (digitVal c))
            (rest.dropWhile isDigitChar)
        else none
    | [] => none
  noFloat (n : Nat) (rest : List Char) : Option (Nat × List Char) :=
    match rest with
    | c :: _ => if c = '.' || c = 'e' || c = 'E' then none else some (n, rest)
    | [] => some (n, rest)

mutual

/-- A JSON value, leading whitespace allowed. -/
def parseJsonVal : Nat → List Char → Option (PyVal × List Char)
  | 0, _ => none
  | fuel + 1, cs =>
    match jsonSkipWs cs with
    | 'n' :: 'u' :: 'l' :: 'l' :: rest => some (.null, rest)
    | 't' :: 'r' :: 'u' :: 'e' :: rest => some (.bool true, rest)
    | 'f' :: 'a' :: 'l' :: 's' :: 'e' :: rest => some (.bool false, rest)
    | '"' :: rest => (parseStrLit rest).map fun p => (.str (String.mk p.1), p.2)
    | '[' :: rest =>
      (match jsonSkipWs rest with
       | ']' :: r2 => some (.arr [], r2)
       | cs2 => (parseJsonArrItems fuel cs2).map fun p => (.arr p.1, p.2))
    | c :: rest =>
      if c = braceL then
        match jsonSkipWs rest with
        | c2 :: r2 =>
          if c2 = braceR then some (.obj [], r2)
          else (parseJsonObjItems fuel (c2 :: r2)).map fun p => (.obj p.1, p.2)
        | [] => none
      else (parseJsonInt (c :: rest)).map fun p => (.int p.1, p.2)
    | [] => none

/-- One or more comma-separated array elements followed by `]`. -/
def parseJsonArrItems : Nat → List Char → Option (List PyVal × List Char)
  | 0, _ => none
  | fuel + 1, cs => do
    let (v, r) ← parseJsonVal fuel cs
    match jsonSkipWs r with
    | ']' :: r2 => some ([v], r2)
    | ',' :: r2 => (parseJsonArrItems fuel r2).map fun p => (v :: p.1, p.2)
    | _ => none

/-- One or more comma-separated object members followed by the closing
brace. -/
def parseJsonObjItems : Nat → List Char → Option (List (String × PyVal) × List Char)
  | 0, _ => none
  | fuel + 1, cs =>
    match jsonSkipWs cs with
    | '"' :: rest => do
      let (kcs, r) ← parseStrLit rest
      match jsonSkipWs r with
      | ':' :: r2 => do
        let (v, r3) ← parseJsonVal fuel r2
        match jsonSkipWs r3 with
        | c :: r4 =>
          if c = braceR then some ([(String.mk kcs, v)], r4)
          else if c = ',' then
            (parseJsonObjItems fuel r4).map fun p => ((String.mk kcs, v) :: p.1, p.2)
          else none
        | [] => none
      | _ => none
    | _ => none

end

/-- `json.loads(s)`: `none` when it raises `JSONDecodeError`. -/
def jsonLoads (s : String) : Option PyVal := do
  let (v, rest) ← parseJsonVal (2 * s.length + 4) s.toList
  match jsonSkipWs rest with
  | [] => some v
  | _ => none

/-! ## The normalizers and the merge -/

/-- A `NormalizedItem`: the dict appended by either normalizer, with one
field per key. -/
structure Item where
  id : PyVal
  source : String
  sourceName : String
  title : PyVal
  url : PyVal
  image : PyVal
  published : PyVal
  publishedText : PyVal
  ingress : PyVal
  body : PyVal
  category : PyVal
  raw : PyVal
deriving DecidableEq, Repr

/-- `raw.get("items") or []`, followed by the `for item in items` loop
header: a falsy value contributes no iterations; a truthy non-list raises
inside the loop's first iteration (or at the loop header); `raw.get` on a
non-dict raises `AttributeError`. -/
def pyGetItemsList (v : PyVal) : Except Unit (List PyVal) :=
  match v with
  | .obj fields =>
    let items := pyGet fields "items"
    if !pyTruthy items then .ok []
    else
      match items with
      | .arr l => .ok l
      | _ => .error ()
  | _ => .error ()

/-- The kommune id base: `url or title or "kommune-unknown"`, then
`.rstrip("/").rsplit("/", 1)[-1]`.  A truthy non-string raises
`AttributeError` at `.rstrip`. -/
def kommuneBaseId (fields : List (String × PyVal)) : Except Unit String :=
  match pyOr (pyGet fields "url")
      (pyOr (pyGet fields "title") (.str "kommune-unknown")) with
  | .str s => .ok (lastSegment (rstripChar (· = '/') s))
  | _ => .error ()

/-- One iteration of the `load_kommune_items` loop body. -/
def normOneKommune : PyVal → Except Unit Item
  | .obj fields => do
    let baseId ← kommuneBaseId fields
    .ok ⟨.str ("fauske_kommune-" ++ baseId), "fauske_kommune", "Fauske kommune",
      pyGet fields "title", pyGet fields "url",
      pyOr (pyGet fields "imageUrl") (pyGet fields "image"),
      pyGet fields "published",
      pyOr (pyGet fields "publishedText") (pyGet fields "published"),
      pyGet fields "ingress", pyGet fields "body", pyGet fields "category",
      .obj fields⟩
  | _ => .error ()

/-- One iteration of the `load_nf_items` loop body. -/
def normOneNf : PyVal → Except Unit Item
  | .obj fields => do
    let isoDate ← parse_date_fauskenf_py (pyGet fields "date")
    .ok ⟨pyOr (pyGet fields "id")
        (pyOr (pyGet fields "url")
          (pyOr (pyGet fields "title") (.str "fauskenf-unknown"))),
      "fauskenf", "Fauske Næringsforum",
      pyGet fields "title", pyGet fields "url", pyGet fields "image",
      (match isoDate with | some s => .str s | none => .null),
      pyGet fields "date",
      pyGet fields "ingress", .null, pyGet fields "category",
      .obj fields⟩
  | _ => .error ()

/-- The `for item in items: ... normalized.append(...)` loop of either
loader: items are normalized in order, and an exception raised on any
single item aborts the whole loop. -/
def normLoop (f : PyVal → Except Unit Item) : List PyVal → Except Unit (List Item)
  | [] => .ok []
  | v :: rest => do
    let it ← f v
    let tail ← normLoop f rest
    .ok (it :: tail)

/-- The kommune normalization loop over the decoded `items`. -/
def kommuneLoop : List PyVal → Except Unit (List Item) := normLoop normOneKommune

/-- The næringsforum normalization loop over the decoded `items`. -/
def nfLoop : List PyVal → Except Unit (List Item) := normLoop normOneNf

/-- `load_kommune_items`, with the input file abstracted as
`none` (file absent) or `some text` (its UTF-8 contents):
an absent file contributes zero items; `read_text() or "{}"` makes an
empty file parse as the empty object. -/
def load_kommune_items (file : Option String) : Except Unit (List Item) :=
  match file with
  | none => .ok []
  | some text =>
    match jsonLoads (if text = "" then String.mk [braceL, braceR] else text) with
    | none => .error ()
    | some v => do
      let items ← pyGetItemsList v
      kommuneLoop items

/-- `load_nf_items`, input file abstracted as in `load_kommune_items`. -/
def load_nf_items (file : Option String) : Except Unit (List Item) :=
  match file with
  | none => .ok []
  | some text =>
    match jsonLoads (if text = "" then String.mk [braceL, braceR] else text) with
    | none => .error ()
    | some v => do
      let items ← pyGetItemsList v
      nfLoop items

/-- The sort key `parse_date_sortkey(item.get("published"))` in its
order-preserving numeric encoding. -/
def itemKey (it : Item) : Nat := dtKey (parse_date_sortkey it.published)

/-- One step of the stable descending sort: `x` is placed before the first
element whose key is `≤` its own, so an earlier item precedes later items
with an equal key. -/
def insertDesc (x : Item) : List Item → List Item
  | [] => [x]
  | y :: ys => if itemKey x < itemKey y then y :: insertDesc x ys else x :: y :: ys

/-- `list.sort(key=..., reverse=True)`: Python's sort is stable and
`reverse=True` still keeps the original order of key-equal elements, i.e.
it is the (unique) stable descending sort, here as insertion sort. -/
def sortDesc : List Item → List Item
  | [] => []
  | x :: xs => insertDesc x (sortDesc xs)

/-- `build_combined`, restricted to the `items` list of the produced feed
(the only other field, `lastUpdated`, is the wall-clock
`datetime.now().isoformat()` and carries no claim). -/
def build_combined (kommuneFile nfFile : Option String) : Except Unit (List Item) := do
  let ks ← load_kommune_items kommuneFile
  let ns ← load_nf_items nfFile
  .ok (sortDesc (ks ++ ns))

/-! ## Lemmas: the normalization loop -/

theorem except_bind_ok {α β : Type} (a : α) (g : α → Except Unit β) :
    (Except.ok a >>= g) = g a := rfl

theorem except_bind_error {α β : Type} (g : α → Except Unit β) :
    ((Except.error () : Except Unit α) >>= g) = Except.error () := rfl

/-- A successful run of the loop normalizes the raw items pointwise. -/
theorem normLoop_forall₂ {f : PyVal → Except Unit Item} :
    ∀ {raws : List PyVal} {out : List Item}, normLoop f raws = .ok out →
      List.Forall₂ (fun r it => f r = .ok it) raws out := by
  intro raws
  induction raws with
  | nil =>
    intro out h
    simp only [normLoop] at h
    cases h
    exact .nil
  | cons v rest ih =>
    intro out h
    simp only [normLoop] at h
    cases hf : f v with
    | error e =>
      rw [hf] at h
      cases e
      rw [except_bind_error] at h
      cases h
    | ok it =>
      rw [hf, except_bind_ok] at h
      cases hr : normLoop f rest with
      | error e =>
        rw [hr] at h
        cases e
        rw [except_bind_error] at h
        cases h
      | ok tail =>
        rw [hr, except_bind_ok] at h
        cases h
        exact .cons hf (ih hr)

/-- Conversely, pointwise success makes the loop succeed. -/
theorem normLoop_of_forall₂ {f : PyVal → Except Unit Item}
    {raws : List PyVal} {out : List Item}
    (h : List.Forall₂ (fun r it => f r = .ok it) raws out) :
    normLoop f raws = .ok out := by
  induction h with
  | nil => rfl
  | cons hf _ ih =>
    simp only [normLoop, hf, except_bind_ok, ih]

/-! ## Lemmas: the stable descending sort -/

theorem insertDesc_headOpt (x : Item) (l : List Item) :
    (insertDesc x l).head? = some x ∨ (insertDesc x l).head? = l.head? := by
  cases l with
  | nil => left; rfl
  | cons y ys =>
    simp only [insertDesc]
    split
    · right; rfl
    · left; rfl

theorem chain'_insertDesc (x : Item) :
    ∀ l : List Item, List.Chain' (fun a b => itemKey b ≤ itemKey a) l →
      List.Chain' (fun a b => itemKey b ≤ itemKey a) (insertDesc x l) := by
  intro l
  induction l with
  | nil => intro _; simp [insertDesc]
  | cons y ys ih =>
    intro h
    rw [List.chain'_cons'] at h
    obtain ⟨hy, hys⟩ := h
    simp only [insertDesc]
    split
    · rename_i hlt
      rw [List.chain'_cons']
      refine ⟨?_, ih hys⟩
      intro z hz
      rcases insertDesc_headOpt x ys with hh | hh
      · rw [hh] at hz
        cases hz
        exact Nat.le_of_lt hlt
      · rw [hh] at hz
        exact hy z hz
    · rename_i hge
      rw [List.chain'_cons']
      refine ⟨?_, List.chain'_cons'.2 ⟨hy, hys⟩⟩
      intro z hz
      cases hz
      exact Nat.le_of_not_lt hge

theorem chain'_sortDesc :
    ∀ l : List Item, List.Chain' (fun a b => itemKey b ≤ itemKey a) (sortDesc l) := by
  intro l
  induction l with
  | nil => simp [sortDesc]
  | cons x xs ih => exact chain'_insertDesc x (sortDesc xs) ih

theorem filter_insertDesc (x : Item) (n : Nat) :
    ∀ l : List Item, (insertDesc x l).filter (fun a => decide (itemKey a = n)) =
      if itemKey x = n then x :: l.filter (fun a => decide (itemKey a = n))
      else l.filter (fun a => decide (itemKey a = n)) := by
  intro l
  induction l with
  | nil =>
    by_cases hx : itemKey x = n <;> simp [insertDesc, List.filter, hx]
  | cons y ys ih =>
    simp only [insertDesc]
    split
    · rename_i hlt
      rw [List.filter_cons, ih]
      by_cases hx : itemKey x = n
      · have hy : ¬(itemKey y = n) := by omega
        simp [hx, hy]
      · simp [hx, List.filter_cons]
    · by_cases hx : itemKey x = n <;> simp [List.filter_cons, hx]

theorem filter_sortDesc (n : Nat) :
    ∀ l : List Item, (sortDesc l).filter (fun a => decide (itemKey a = n)) =
      l.filter (fun a => decide (itemKey a = n)) := by
  intro l
  induction l with
  | nil => rfl
  | cons x xs ih =>
    simp only [sortDesc]
    rw [filter_insertDesc, ih, List.filter_cons]
    by_cases hx : itemKey x = n <;> simp [hx]

theorem insertDesc_perm (x : Item) :
    ∀ l : List Item, (insertDesc x l).Perm (x :: l) := by
  intro l
  induction l with
  | nil => exact List.Perm.refl _
  | cons y ys ih =>
    simp only [insertDesc]
    split
    · exact (ih.cons y).trans (List.Perm.swap x y ys)
    · exact List.Perm.refl _

theorem sortDesc_perm : ∀ l : List Item, (sortDesc l).Perm l := by
  intro l
  induction l with
  | nil => exact List.Perm.refl _
  | cons x xs ih => exact (insertDesc_perm x (sortDesc xs)).trans (ih.cons x)

/-! ## Lemmas: validity of parsed dates -/

/-- All fields of a datetime are in the ranges `datetime` enforces. -/
def DtValid (dt : PyDatetime) : Prop :=
  1 ≤ dt.year ∧ dt.year ≤ 9999 ∧ 1 ≤ dt.month ∧ dt.month ≤ 12 ∧ 1 ≤ dt.day ∧
    dt.day ≤ daysInMonth dt.year dt.month ∧ dt.hour ≤ 23 ∧ dt.minute ≤ 59 ∧
    dt.second ≤ 59 ∧ dt.usec ≤ 999999

/-- All fields of a date are in the ranges `datetime.date` enforces. -/
def DateValid (d : Date) : Prop :=
  1 ≤ d.year ∧ d.year ≤ 9999 ∧ 1 ≤ d.month ∧ d.month ≤ 12 ∧ 1 ≤ d.day ∧
    d.day ≤ daysInMonth d.year d.month

theorem mkDate_valid {y m d : Int} {dd : Date} (h : mkDate y m d = some dd) :
    DateValid dd := by
  unfold mkDate at h
  split at h
  · rename_i hc
    cases h
    obtain ⟨h1, h2, h3, h4, h5, h6⟩ := hc
    refine ⟨?_, ?_, ?_, ?_, ?_, ?_⟩ <;>
      · simp only []
        omega
  · cases h

theorem dtMin_valid : DtValid dtMin := by
  refine ⟨?_, ?_, ?_, ?_, ?_, ?_, ?_, ?_, ?_, ?_⟩ <;> simp [dtMin, daysInMonth]

theorem dateAtMidnight_valid {d : Date} (h : DateValid d) :
    DtValid (dateAtMidnight d) := by
  obtain ⟨h1, h2, h3, h4, h5, h6⟩ := h
  exact ⟨h1, h2, h3, h4, h5, h6, by simp [dateAtMidnight], by simp [dateAtMidnight],
    by simp [dateAtMidnight], by simp [dateAtMidnight]⟩

theorem dtValid_date {dt : PyDatetime} (h : DtValid dt) : DateValid dt.date :=
  ⟨h.1, h.2.1, h.2.2.1, h.2.2.2.1, h.2.2.2.2.1, h.2.2.2.2.2.1⟩

theorem isoformat_iso {d : Date} (h : DateValid d) : IsIsoDateString d.isoformat :=
  ⟨d.year, d.month, d.day, h.1, h.2.1, h.2.2.1, h.2.2.2.1, h.2.2.2.2.1,
    h.2.2.2.2.2, rfl⟩

theorem digit_bounds {c : Char} (h : isDigitChar c = true) :
    48 ≤ c.toNat ∧ c.toNat ≤ 57 := by
  simpa [isDigitChar] using h

theorem fracVal_le {fs : List Char} {us : Nat} (h : fracVal fs = some us) :
    us ≤ 999999 := by
  unfold fracVal at h
  split at h
  · split at h
    · rename_i hd
      cases h
      simp only [Bool.and_eq_true] at hd
      obtain ⟨⟨ha, hb⟩, hc⟩ := hd
      obtain ⟨_, _⟩ := digit_bounds ha
      obtain ⟨_, _⟩ := digit_bounds hb
      obtain ⟨_, _⟩ := digit_bounds hc
      simp only [digitVal]
      omega
    · cases h
  · split at h
    · rename_i hd
      cases h
      simp only [Bool.and_eq_true] at hd
      obtain ⟨⟨⟨⟨⟨ha, hb⟩, hc⟩, hd'⟩, he⟩, hf⟩ := hd
      obtain ⟨_, _⟩ := digit_bounds ha
      obtain ⟨_, _⟩ := digit_bounds hb
      obtain ⟨_, _⟩ := digit_bounds hc
      obtain ⟨_, _⟩ := digit_bounds hd'
      obtain ⟨_, _⟩ := digit_bounds he
      obtain ⟨_, _⟩ := digit_bounds hf
      simp only [digitVal]
      omega
    · cases h
  · cases h

theorem twoDigits_le {a b : Char} {n : Nat} (h : twoDigits a b = some n) :
    n ≤ 99 := by
  unfold twoDigits at h
  split at h
  · rename_i hd
    cases h
    simp only [Bool.and_eq_true] at hd
    obtain ⟨ha, hb⟩ := hd
    obtain ⟨_, _⟩ := digit_bounds ha
    obtain ⟨_, _⟩ := digit_bounds hb
    simp only [digitVal]
    omega
  · cases h

theorem isoTimePart_usec {cs : List Char} {hh mi ss us : Nat}
    (h : isoTimePart cs = some (hh, mi, ss, us)) : us ≤ 999999 := by
  unfold isoTimePart at h
  split at h
  · simp only [Option.bind_eq_bind, Option.bind_eq_some, Option.some.injEq,
      Prod.mk.injEq] at h
    obtain ⟨n, _, _, _, _, h⟩ := h
    omega
  · simp only [Option.bind_eq_bind, Option.bind_eq_some, Option.some.injEq,
      Prod.mk.injEq] at h
    obtain ⟨n, _, m, _, _, _, _, h⟩ := h
    omega
  · simp only [Option.bind_eq_bind, Option.bind_eq_some, Option.some.injEq,
      Prod.mk.injEq] at h
    obtain ⟨n, _, m, _, k, _, _, _, _, h⟩ := h
    omega
  · simp only [Option.bind_eq_bind, Option.bind_eq_some, Option.some.injEq,
      Prod.mk.injEq] at h
    obtain ⟨n, _, m, _, k, _, u, hu, _, _, _, h⟩ := h
    have := fracVal_le hu
    omega
  · cases h

theorem fromisoList_valid {cs : List Char} {dt : PyDatetime}
    (h : fromisoList cs = some dt) : DtValid dt := by
  unfold fromisoList at h
  split at h
  · simp only [Option.bind_eq_bind, Option.bind_eq_some] at h
    obtain ⟨yy, hyy, mm, hmm, dd, hdd, date, hdate, h⟩ := h
    have hv := mkDate_valid hdate
    split at h
    · cases h
      exact dateAtMidnight_valid hv
    · simp only [Option.bind_eq_bind, Option.bind_eq_some] at h
      obtain ⟨⟨hh, mi, ss, us⟩, htime, h⟩ := h
      split at h
      · rename_i hb
        cases h
        simp only [Bool.and_eq_true, decide_eq_true_eq] at hb
        obtain ⟨⟨hh23, mi59⟩, ss59⟩ := hb
        obtain ⟨v1, v2, v3, v4, v5, v6⟩ := hv
        exact ⟨v1, v2, v3, v4, v5, v6, hh23, mi59, ss59, isoTimePart_usec htime⟩
      · cases h
  · cases h

theorem fromisoformat_valid {s : String} {dt : PyDatetime}
    (h : fromisoformat s = some dt) : DtValid dt :=
  fromisoList_valid h

theorem strptimeDMY_valid {s : String} {d : Date} (h : strptimeDMY s = some d) :
    DateValid d := by
  unfold strptimeDMY at h
  split at h
  · exact mkDate_valid h
  · cases h

theorem strptimeYMD_valid {s : String} {d : Date} (h : strptimeYMD s = some d) :
    DateValid d := by
  unfold strptimeYMD at h
  split at h
  · exact mkDate_valid h
  · cases h

theorem parse_date_fauskenf_iso {s r : String}
    (h : parse_date_fauskenf s = some r) : IsIsoDateString r := by
  unfold parse_date_fauskenf at h
  split at h
  · cases h
  · split at h
    · rename_i d hd
      cases h
      exact isoformat_iso (strptimeDMY_valid hd)
    · split at h
      · rename_i dt hdt
        cases h
        exact isoformat_iso (dtValid_date (fromisoformat_valid hdt))
      · cases h

theorem parse_date_iso {s r : String} (h : parse_date s = some r) :
    IsIsoDateString r := by
  unfold parse_date at h
  repeat' split at h
  all_goals
    first
    | exact Option.noConfusion h
    | (injection h with hr
       subst hr
       exact isoformat_iso (mkDate_valid (by assumption)))

theorem parse_date_sortkey_valid (v : PyVal) : DtValid (parse_date_sortkey v) := by
  unfold parse_date_sortkey
  split
  · exact dtMin_valid
  · split
    · rename_i s
      unfold parse_date_sortkey_str
      split
      · rename_i dt hdt
        exact fromisoformat_valid hdt
      · split
        · rename_i d hd
          exact dateAtMidnight_valid (strptimeYMD_valid hd)
        · split
          · rename_i d hd
            exact dateAtMidnight_valid (strptimeDMY_valid hd)
          · exact dtMin_valid
    · exact dtMin_valid

/-! ## Lemmas: a `%d.%m.%Y` match is never an isoformat string

Every full match of the dot format has, at index 4, either a literal `.` or
a digit demanded by a regex character class, while every isoformat string
has `-` there; so the two parses accept disjoint sets of strings. -/

theorem isDigitChar_dash : isDigitChar '-' = false := by decide

theorem dmy22_no_iso {cs : List Char} {x : Nat × Nat × Nat} (h : dmy22 cs = some x) :
    fromisoList cs = none := by
  unfold dmy22 at h
  split at h
  · rename_i a b c d e f g hh
    simp only [Option.bind_eq_bind, Option.bind_eq_some] at h
    obtain ⟨dd, hdd, mm, hmm, yy, hyy, _⟩ := h
    unfold fromisoList
    split
    · rename_i heq
      simp only [List.cons.injEq] at heq
      obtain ⟨_, _, _, _, hdash, _⟩ := heq
      rw [hdash] at hmm
      unfold month2Val at hmm
      rw [isDigitChar_dash, Bool.and_false] at hmm
      simp at hmm
    · rfl
  · cases h

theorem dmy21_no_iso {cs : List Char} {x : Nat × Nat × Nat} (h : dmy21 cs = some x) :
    fromisoList cs = none := by
  unfold dmy21 at h
  split at h
  · unfold fromisoList
    split
    · rename_i heq
      simp at heq
    · rfl
  · cases h

theorem dmy12_no_iso {cs : List Char} {x : Nat × Nat × Nat} (h : dmy12 cs = some x) :
    fromisoList cs = none := by
  unfold dmy12 at h
  split at h
  · unfold fromisoList
    split
    · rename_i heq
      simp at heq
    · rfl
  · cases h

theorem dmy11_no_iso {cs : List Char} {x : Nat × Nat × Nat} (h : dmy11 cs = some x) :
    fromisoList cs = none := by
  unfold dmy11 at h
  split at h
  · unfold fromisoList
    split
    · rename_i heq
      simp at heq
    · rfl
  · cases h

theorem regexDMY_fromiso_none {cs : List Char} {x : Nat × Nat × Nat}
    (h : regexDMY cs = some x) : fromisoList cs = none := by
  unfold regexDMY at h
  cases h22 : dmy22 cs with
  | some y => exact dmy22_no_iso h22
  | none =>
    cases h21 : dmy21 cs with
    | some y => exact dmy21_no_iso h21
    | none =>
      cases h12 : dmy12 cs with
      | some y => exact dmy12_no_iso h12
      | none =>
        cases h11 : dmy11 cs with
        | some y => exact dmy11_no_iso h11
        | none =>
          rw [h22, h21, h12, h11] at h
          simp at h

/-- A string accepted by `fromisoformat` is rejected by
`strptime(·, "%d.%m.%Y")`: the two date grammars are disjoint. -/
theorem strptimeDMY_none_of_iso {t : String} {dt : PyDatetime}
    (h : fromisoformat t = some dt) : strptimeDMY t = none := by
  unfold strptimeDMY
  cases hr : regexDMY t.toList with
  | none => rfl
  | some x =>
    have h2 := regexDMY_fromiso_none hr
    unfold fromisoformat at h
    rw [h2] at h
    cases h

/-! ## Claim theorems -/

/-- **C2.** For every input string (and every JSON value reaching the
sort-key function), each date-normalization function terminates and
returns a well-formed value — `parse_date` and `parse_date_fauskenf` a
valid ISO `YYYY-MM-DD` string or `None`, `parse_date_sortkey` a datetime —
and never raises: the embeddings are total Lean functions, and every
`some` they return is a valid zero-padded calendar date. -/
theorem date_parsing_total (s : String) (v : PyVal) :
    (∀ r, parse_date s = some r → IsIsoDateString r) ∧
    (∀ r, parse_date_fauskenf s = some r → IsIsoDateString r) ∧
    DtValid (parse_date_sortkey v) :=
  ⟨fun _ h => parse_date_iso h, fun _ h => parse_date_fauskenf_iso h,
    parse_date_sortkey_valid v⟩

theorem date_parsing_total_witness :
    IsIsoDateString "2025-11-13" ∧
      DtValid (parse_date_sortkey (.str "17.11.2025")) :=
  ⟨(date_parsing_total "13. november 2025" (.str "17.11.2025")).1 "2025-11-13"
      (by rfl),
    (date_parsing_total "13. november 2025" (.str "17.11.2025")).2.2⟩

/-- **C3.** Both date-normalization functions of the merge pipeline behave
as "ISO 8601 first, dot format as fallback": whenever the (stripped) input
is ISO-parseable, `parse_date_fauskenf` returns exactly the ISO
interpretation (its dot-format attempt provably fails on every isoformat
string), `parse_date_sortkey` returns exactly the ISO datetime, and no
string is valid under both the ISO grammar and the `%d.%m.%Y` regex, so
the ISO interpretation wins whenever both could apply. -/
theorem iso_parse_attempted_first (s : String) (dt : PyDatetime) :
    (fromisoformat (pyStrip s) = some dt →
      parse_date_fauskenf s = some dt.date.isoformat) ∧
    (fromisoformat s = some dt → parse_date_sortkey (.str s) = dt) ∧
    (∀ x, regexDMY s.toList = some x → fromisoformat s = none) := by
  refine ⟨?_, ?_, ?_⟩
  · intro h
    have hdmy := strptimeDMY_none_of_iso h
    by_cases hs : s = ""
    · subst hs
      rw [show fromisoformat (pyStrip "") = none from rfl] at h
      cases h
    · unfold parse_date_fauskenf
      rw [if_neg hs, hdmy, h]
  · intro h
    have hs : ¬(s = "") := by
      intro hs
      subst hs
      rw [show fromisoformat "" = none from rfl] at h
      cases h
    unfold parse_date_sortkey
    have ht : pyTruthy (.str s) = true := by simp [pyTruthy, hs]
    rw [ht]
    simp only [Bool.not_true, Bool.false_eq_true, if_false]
    unfold parse_date_sortkey_str
    rw [h]
  · intro x hx
    exact regexDMY_fromiso_none hx

theorem iso_parse_attempted_first_witness :
    parse_date_fauskenf "2025-11-13" = some "2025-11-13" ∧
      parse_date_sortkey (.str "2025-11-13") = ⟨2025, 11, 13, 0, 0, 0, 0⟩ :=
  ⟨(iso_parse_attempted_first "2025-11-13" ⟨2025, 11, 13, 0, 0, 0, 0⟩).1 (by rfl),
    (iso_parse_attempted_first "2025-11-13" ⟨2025, 11, 13, 0, 0, 0, 0⟩).2.1 (by rfl)⟩

/-- **C6.** On the spec's concrete scenario — one kommune item
`X / https://s/a/b / 2025-11-13` and one næringsforum item
`b-1 / 17.11.2025 / Y` — the combined feed has exactly two items, the
item titled `Y` (published `2025-11-17`) ordered before the item titled
`X` (published `2025-11-13`), and `Y`'s normalized `published` equals
`2025-11-17`. -/
theorem concrete_scenario :
    (build_combined
        (some "\x7b\"items\": [\x7b\"title\": \"X\", \"url\": \"https://s/a/b\", \"published\": \"2025-11-13\"\x7d]\x7d")
        (some "\x7b\"items\": [\x7b\"id\": \"b-1\", \"date\": \"17.11.2025\", \"title\": \"Y\"\x7d]\x7d")).map
      (fun l => (l.map (·.title), l.map (·.published))) =
    .ok ([.str "Y", .str "X"], [.str "2025-11-17", .str "2025-11-13"]) := by
  rfl

/-- **C1.** Whenever the merge pipeline produces a combined feed, adjacent
items are non-increasing in the sort key (`parse_date_sortkey` of
`published`, with null/unparseable mapped to `datetime.min`, so such items
sort last), and among items with equal keys the output preserves the order
of the concatenation kommune-items ++ næringsforum-items: the sort is
stable. -/
theorem combined_feed_sorted_stable (kF nfF : Option String) (ks ns : List Item)
    (hk : load_kommune_items kF = .ok ks) (hn : load_nf_items nfF = .ok ns) :
    ∃ items, build_combined kF nfF = .ok items ∧
      List.Chain' (fun a b => itemKey b ≤ itemKey a) items ∧
      ∀ n : Nat, items.filter (fun a => decide (itemKey a = n)) =
        (ks ++ ns).filter (fun a => decide (itemKey a = n)) := by
  refine ⟨sortDesc (ks ++ ns), ?_, chain'_sortDesc _, fun n => filter_sortDesc n _⟩
  unfold build_combined
  rw [hk, except_bind_ok, hn, except_bind_ok]

theorem combined_feed_sorted_stable_witness :
    ∃ items,
      build_combined none
          (some "\x7b\"items\": [\x7b\"id\": \"b-1\", \"date\": \"17.11.2025\", \"title\": \"Y\"\x7d]\x7d") =
        .ok items ∧
      List.Chain' (fun a b => itemKey b ≤ itemKey a) items ∧
      ∀ n : Nat, items.filter (fun a => decide (itemKey a = n)) =
        (([] : List Item) ++
          [(⟨.str "b-1", "fauskenf", "Fauske Næringsforum", .str "Y", .null, .null,
            .str "2025-11-17", .str "17.11.2025", .null, .null, .null,
            .obj [("id", .str "b-1"), ("date", .str "17.11.2025"),
              ("title", .str "Y")]⟩ : Item)]).filter
          (fun a => decide (itemKey a = n)) :=
  combined_feed_sorted_stable none
    (some "\x7b\"items\": [\x7b\"id\": \"b-1\", \"date\": \"17.11.2025\", \"title\": \"Y\"\x7d]\x7d")
    [] _ (by rfl) (by rfl)

/-- **C7.** A missing input file contributes zero items and never aborts
the merge: with the kommune file absent the combined feed consists of
exactly the næringsforum items (sorted), with the næringsforum file absent
it consists of exactly the kommune items, and with both absent it is
empty. -/
theorem missing_file_tolerance :
    (∀ nfF ns, load_nf_items nfF = .ok ns →
      build_combined none nfF = .ok (sortDesc ns) ∧ (sortDesc ns).Perm ns) ∧
    (∀ kF ks, load_kommune_items kF = .ok ks →
      build_combined kF none = .ok (sortDesc ks) ∧ (sortDesc ks).Perm ks) ∧
    build_combined none none = .ok [] := by
  refine ⟨?_, ?_, rfl⟩
  · intro nfF ns hn
    refine ⟨?_, sortDesc_perm ns⟩
    unfold build_combined
    rw [show load_kommune_items none = .ok [] from rfl, except_bind_ok, hn,
      except_bind_ok, List.nil_append]
  · intro kF ks hk
    refine ⟨?_, sortDesc_perm ks⟩
    unfold build_combined
    rw [hk, except_bind_ok, show load_nf_items none = .ok [] from rfl,
      except_bind_ok, List.append_nil]

theorem missing_file_tolerance_witness :
    build_combined none
        (some "\x7b\"items\": [\x7b\"id\": \"b-1\", \"date\": \"17.11.2025\", \"title\": \"Y\"\x7d]\x7d") =
      .ok (sortDesc
        [⟨.str "b-1", "fauskenf", "Fauske Næringsforum", .str "Y", .null, .null,
          .str "2025-11-17", .str "17.11.2025", .null, .null, .null,
          .obj [("id", .str "b-1"), ("date", .str "17.11.2025"),
            ("title", .str "Y")]⟩]) ∧
    (sortDesc
      [⟨.str "b-1", "fauskenf", "Fauske Næringsforum", .str "Y", .null, .null,
        .str "2025-11-17", .str "17.11.2025", .null, .null, .null,
        .obj [("id", .str "b-1"), ("date", .str "17.11.2025"),
          ("title", .str "Y")]⟩]).Perm
      [⟨.str "b-1", "fauskenf", "Fauske Næringsforum", .str "Y", .null, .null,
        .str "2025-11-17", .str "17.11.2025", .null, .null, .null,
        .obj [("id", .str "b-1"), ("date", .str "17.11.2025"),
          ("title", .str "Y")]⟩] :=
  missing_file_tolerance.1
    (some "\x7b\"items\": [\x7b\"id\": \"b-1\", \"date\": \"17.11.2025\", \"title\": \"Y\"\x7d]\x7d")
    _ (by rfl)

/-- **C10.** An input file that exists but is empty is treated like the
empty object `\x7b\x7d` (via `read_text() or "…"`), and a decoded object
whose `items` key is absent or null contributes zero items: neither case
is a fatal malformed-JSON error. -/
theorem empty_input_zero_items :
    (load_kommune_items (some "") = .ok [] ∧ load_nf_items (some "") = .ok []) ∧
    ∀ text fields, jsonLoads text = some (.obj fields) →
      pyGet fields "items" = .null →
      load_kommune_items (some text) = .ok [] ∧
        load_nf_items (some text) = .ok [] := by
  refine ⟨⟨rfl, rfl⟩, ?_⟩
  intro text fields hj hi
  have htext : ¬(text = "") := by
    intro h
    subst h
    rw [show jsonLoads "" = none from rfl] at hj
    cases hj
  have hitems : pyGetItemsList (.obj fields) = .ok [] := by
    simp [pyGetItemsList, hi, pyTruthy]
  constructor
  · simp only [load_kommune_items]
    rw [if_neg htext, hj]
    show (do
        let items ← pyGetItemsList (PyVal.obj fields)
        kommuneLoop items) = Except.ok []
    rw [hitems, except_bind_ok]
    rfl
  · simp only [load_nf_items]
    rw [if_neg htext, hj]
    show (do
        let items ← pyGetItemsList (PyVal.obj fields)
        nfLoop items) = Except.ok []
    rw [hitems, except_bind_ok]
    rfl

theorem empty_input_zero_items_witness :
    load_kommune_items (some "\x7b\"items\": null\x7d") = .ok [] ∧
      load_nf_items (some "\x7b\"items\": null\x7d") = .ok [] :=
  empty_input_zero_items.2 "\x7b\"items\": null\x7d" [("items", .null)]
    (by rfl) (by rfl)

/-! ## Lemmas: per-item facts about the normalizers -/

theorem normLoop_get {f : PyVal → Except Unit Item} {raws : List PyVal}
    {out : List Item} (h : normLoop f raws = .ok out) :
    raws.length = out.length ∧
      ∀ i h1 h2, f (raws.get ⟨i, h1⟩) = .ok (out.get ⟨i, h2⟩) :=
  List.forall₂_iff_get.1 (normLoop_forall₂ h)

theorem forall₂_mem_right {α β : Type} {R : α → β → Prop} :
    ∀ {l₁ : List α} {l₂ : List β}, List.Forall₂ R l₁ l₂ →
      ∀ b ∈ l₂, ∃ a ∈ l₁, R a b := by
  intro l₁ l₂ h
  induction h with
  | nil => intro b hb; cases hb
  | cons hr _ ih =>
    intro b hb
    rcases List.mem_cons.1 hb with hb | hb
    · subst hb
      exact ⟨_, List.mem_cons_self _ _, hr⟩
    · obtain ⟨a, ha, hab⟩ := ih b hb
      exact ⟨a, List.mem_cons_of_mem _ ha, hab⟩

/-- When the `date` value is a string with no parseable date, the item is
normalized successfully, with `published = None` and the raw date text
preserved verbatim in `publishedText`. -/
theorem normOneNf_unparseable {fields : List (String × PyVal)} {s : String}
    {it : Item} (hs : pyGet fields "date" = .str s)
    (hp : parse_date_fauskenf s = none)
    (h : normOneNf (.obj fields) = .ok it) :
    it.raw = .obj fields ∧ it.published = .null ∧ it.publishedText = .str s := by
  have hpy : parse_date_fauskenf_py (pyGet fields "date") = .ok none := by
    rw [hs]
    unfold parse_date_fauskenf_py
    by_cases ht : pyTruthy (.str s)
    · simp [ht, hp]
    · simp [ht]
  simp only [normOneNf] at h
  rw [hpy, except_bind_ok] at h
  cases h
  exact ⟨rfl, rfl, hs⟩

/-- When the `date` value is falsy or a string, the item normalizes
without raising. -/
theorem normOneNf_ok {fields : List (String × PyVal)}
    (h : pyTruthy (pyGet fields "date") = false ∨
      ∃ s, pyGet fields "date" = .str s) :
    ∃ it, normOneNf (.obj fields) = .ok it := by
  have : ∃ o, parse_date_fauskenf_py (pyGet fields "date") = .ok o := by
    unfold parse_date_fauskenf_py
    rcases h with hf | ⟨s, hs⟩
    · rw [hf]
      exact ⟨none, rfl⟩
    · rw [hs]
      by_cases ht : pyTruthy (.str s)
      · refine ⟨parse_date_fauskenf s, ?_⟩
        simp [ht]
      · refine ⟨none, ?_⟩
        simp [ht]
  obtain ⟨o, ho⟩ := this
  refine ⟨⟨pyOr (pyGet fields "id")
      (pyOr (pyGet fields "url")
        (pyOr (pyGet fields "title") (.str "fauskenf-unknown"))),
    "fauskenf", "Fauske Næringsforum",
    pyGet fields "title", pyGet fields "url", pyGet fields "image",
    (match o with | some s => .str s | none => .null),
    pyGet fields "date",
    pyGet fields "ingress", .null, pyGet fields "category",
    .obj fields⟩, ?_⟩
  simp only [normOneNf]
  simp only [ho, except_bind_ok]
  cases o <;> rfl

/-- **C8.** A næringsforum raw item whose `date` string fails every date
parse is still included: its normalized record has `published = None` and
`publishedText` equal to the raw date string verbatim, and the failure
never aborts the batch (the loop succeeds whenever each item's `date` is a
string or falsy). -/
theorem nf_unparseable_date_kept (raws : List PyVal)
    (h : ∀ r ∈ raws, ∃ fields, r = PyVal.obj fields ∧
      (pyTruthy (pyGet fields "date") = false ∨
        ∃ s, pyGet fields "date" = .str s)) :
    ∃ out, nfLoop raws = .ok out ∧
      ∀ r ∈ raws, ∀ fields s, r = PyVal.obj fields →
        pyGet fields "date" = .str s → parse_date_fauskenf s = none →
        ∃ it ∈ out, it.raw = r ∧ it.published = .null ∧
          it.publishedText = .str s := by
  induction raws with
  | nil => exact ⟨[], rfl, fun r hr => absurd hr (List.not_mem_nil r)⟩
  | cons v rest ih =>
    obtain ⟨fields, hv, hdate⟩ := h v (List.mem_cons_self _ _)
    subst hv
    obtain ⟨it, hit⟩ := normOneNf_ok hdate
    obtain ⟨out, hout, hprop⟩ := ih (fun r hr => h r (List.mem_cons_of_mem _ hr))
    refine ⟨it :: out, ?_, ?_⟩
    · show normLoop normOneNf (PyVal.obj fields :: rest) = .ok (it :: out)
      unfold normLoop
      rw [hit, except_bind_ok]
      rw [show normLoop normOneNf rest = .ok out from hout, except_bind_ok]
    · intro r hr fields' s hr' hd hp
      rcases List.mem_cons.1 hr with hr | hr
      · subst hr
        have hf : fields' = fields := by
          injection hr' with h'
          exact h'.symm
        subst hf
        obtain ⟨h1, h2, h3⟩ := normOneNf_unparseable hd hp hit
        exact ⟨it, List.mem_cons_self _ _, by rw [h1, hr'], h2, h3⟩
      · obtain ⟨it', hmem, hps⟩ := hprop r hr fields' s hr' hd hp
        exact ⟨it', List.mem_cons_of_mem _ hmem, hps⟩

theorem nf_unparseable_date_kept_witness :
    ∃ out, nfLoop [PyVal.obj [("date", .str "kommer snart")]] = .ok out ∧
      ∀ r ∈ [PyVal.obj [("date", .str "kommer snart")]],
        ∀ fields s, r = PyVal.obj fields →
        pyGet fields "date" = .str s → parse_date_fauskenf s = none →
        ∃ it ∈ out, it.raw = r ∧ it.published = .null ∧
          it.publishedText = .str s :=
  nf_unparseable_date_kept [PyVal.obj [("date", .str "kommer snart")]]
    (by
      intro r hr
      simp only [List.mem_singleton] at hr
      subst hr
      exact ⟨[("date", .str "kommer snart")], rfl,
        .inr ⟨"kommer snart", rfl⟩⟩)

/-- **C9.** The id of a normalized item is a deterministic function of its
raw item alone: in both normalizers, equal raw items — at any positions,
in any batches — receive equal ids, so re-normalizing the same raw input
yields identical ids, independent of run, position, or the rest of the
batch. -/
theorem id_derivation_deterministic :
    (∀ (raws₁ raws₂ : List PyVal) (out₁ out₂ : List Item) (i j : Nat)
      (hi : i < raws₁.length) (hj : j < raws₂.length)
      (hi' : i < out₁.length) (hj' : j < out₂.length),
      kommuneLoop raws₁ = .ok out₁ → kommuneLoop raws₂ = .ok out₂ →
      raws₁.get ⟨i, hi⟩ = raws₂.get ⟨j, hj⟩ →
      (out₁.get ⟨i, hi'⟩).id = (out₂.get ⟨j, hj'⟩).id) ∧
    (∀ (raws₁ raws₂ : List PyVal) (out₁ out₂ : List Item) (i j : Nat)
      (hi : i < raws₁.length) (hj : j < raws₂.length)
      (hi' : i < out₁.length) (hj' : j < out₂.length),
      nfLoop raws₁ = .ok out₁ → nfLoop raws₂ = .ok out₂ →
      raws₁.get ⟨i, hi⟩ = raws₂.get ⟨j, hj⟩ →
      (out₁.get ⟨i, hi'⟩).id = (out₂.get ⟨j, hj'⟩).id) := by
  constructor <;>
  · intro raws₁ raws₂ out₁ out₂ i j hi hj hi' hj' h1 h2 hraw
    have e1 := (normLoop_get h1).2 i hi hi'
    have e2 := (normLoop_get h2).2 j hj hj'
    rw [hraw] at e1
    rw [e2] at e1
    injection e1 with e
    rw [e]

theorem id_derivation_deterministic_witness :
    (([⟨.str "fauske_kommune-kommune-unknown", "fauske_kommune",
        "Fauske kommune", .null, .null, .null, .null, .null, .null, .null,
        .null, .obj []⟩] : List Item).get ⟨0, by decide⟩).id =
      (([⟨.str "fauske_kommune-kommune-unknown", "fauske_kommune",
        "Fauske kommune", .null, .null, .null, .null, .null, .null, .null,
        .null, .obj []⟩] : List Item).get ⟨0, by decide⟩).id :=
  id_derivation_deterministic.1 [PyVal.obj []] [PyVal.obj []]
    [⟨.str "fauske_kommune-kommune-unknown", "fauske_kommune",
      "Fauske kommune", .null, .null, .null, .null, .null, .null, .null,
      .null, .obj []⟩]
    [⟨.str "fauske_kommune-kommune-unknown", "fauske_kommune",
      "Fauske kommune", .null, .null, .null, .null, .null, .null, .null,
      .null, .obj []⟩]
    0 0 (by decide) (by decide) (by decide) (by decide) (by rfl) (by rfl) rfl

theorem parse_date_fauskenf_py_some {v : PyVal} {s : String}
    (h : parse_date_fauskenf_py v = .ok (some s)) : IsIsoDateString s := by
  unfold parse_date_fauskenf_py at h
  split at h
  · injection h with h'
    cases h'
  · split at h
    · injection h with h'
      exact parse_date_fauskenf_iso h'
    · cases h

theorem nf_published_iso_or_null {raws : List PyVal} {out : List Item}
    (h : nfLoop raws = .ok out) :
    ∀ it ∈ out, it.published = .null ∨
      ∃ s, it.published = .str s ∧ IsIsoDateString s := by
  intro it hit
  obtain ⟨r, _, hr⟩ := forall₂_mem_right (normLoop_forall₂ h) it hit
  cases r with
  | obj fields =>
    simp only [normOneNf] at hr
    cases ho : parse_date_fauskenf_py (pyGet fields "date") with
    | error e =>
      rw [ho] at hr
      cases e
      rw [except_bind_error] at hr
      cases hr
    | ok o =>
      rw [ho, except_bind_ok] at hr
      cases hr
      cases o with
      | none => left; rfl
      | some s => right; exact ⟨s, rfl, parse_date_fauskenf_py_some ho⟩
  | null => simp [normOneNf] at hr
  | bool b => simp [normOneNf] at hr
  | int n => simp [normOneNf] at hr
  | str s => simp [normOneNf] at hr
  | arr l => simp [normOneNf] at hr

theorem kommune_published_passthrough {fields : List (String × PyVal)}
    {it : Item} (h : normOneKommune (.obj fields) = .ok it) :
    it.published = pyGet fields "published" := by
  simp only [normOneKommune] at h
  cases hb : kommuneBaseId fields with
  | error e =>
    rw [hb] at h
    cases e
    rw [except_bind_error] at h
    cases h
  | ok b =>
    rw [hb, except_bind_ok] at h
    cases h
    rfl

/-- Prefixing with the source namespace is injective, so kommune ids
collide exactly when the derived base segments collide. -/
theorem kommune_id_prefix_injective :
    Function.Injective (fun b : String => PyVal.str ("fauske_kommune-" ++ b)) := by
  intro a b hab
  simp only [PyVal.str.injEq] at hab
  have h2 := congrArg String.data hab
  simp only [String.data_append] at h2
  have h3 := List.append_cancel_left h2
  cases a
  cases b
  cases h3
  rfl

theorem kommune_bases_exist {raws : List PyVal} {out : List Item}
    (hF : List.Forall₂ (fun r it => normOneKommune r = .ok it) raws out) :
    ∃ bases : List String,
      List.Forall₂ (fun r b => ∃ fields, r = PyVal.obj fields ∧
        kommuneBaseId fields = .ok b) raws bases ∧
      out.map (·.id) =
        bases.map (fun b => PyVal.str ("fauske_kommune-" ++ b)) := by
  induction hF with
  | nil => exact ⟨[], .nil, rfl⟩
  | cons hr hrest ih =>
    rename_i r it raws' out'
    obtain ⟨bases, hb1, hb2⟩ := ih
    cases r with
    | obj fields =>
      cases hbase : kommuneBaseId fields with
      | error e =>
        simp only [normOneKommune] at hr
        rw [hbase] at hr
        cases e
        rw [except_bind_error] at hr
        cases hr
      | ok b =>
        simp only [normOneKommune] at hr
        rw [hbase, except_bind_ok] at hr
        cases hr
        exact ⟨b :: bases, .cons ⟨fields, rfl, hbase⟩ hb1,
          by simp only [List.map_cons, hb2]⟩
    | null => simp [normOneKommune] at hr
    | bool c => simp [normOneKommune] at hr
    | int n => simp [normOneKommune] at hr
    | str s => simp [normOneKommune] at hr
    | arr l => simp [normOneKommune] at hr

/-- **C4 (counterexample).** Two distinct kommune raw items whose URLs end
in the same final path segment are normalized to the SAME id
`fauske_kommune-b`, refuting per-source id uniqueness. -/
theorem kommune_id_not_unique_cx :
    (load_kommune_items
        (some "\x7b\"items\": [\x7b\"url\": \"https://s/a/b\"\x7d, \x7b\"url\": \"https://s/x/b\"\x7d]\x7d")).map
        (fun l => (l.map (·.id), l.map (·.raw))) =
      .ok ([.str "fauske_kommune-b", .str "fauske_kommune-b"],
        [.obj [("url", .str "https://s/a/b")],
         .obj [("url", .str "https://s/x/b")]]) ∧
    PyVal.obj [("url", .str "https://s/a/b")] ≠
      PyVal.obj [("url", .str "https://s/x/b")] :=
  ⟨by rfl, by decide⟩

/-- **C4 (amended).** Each normalizer derives ids deterministically from
the raw item, but uniqueness is conditional, not guaranteed: every
successful kommune normalization yields ids of the form
`"fauske_kommune-" ++ base` with `base` computed per item from
URL/title, and the output ids are pairwise distinct IF AND ONLY IF those
derived base segments are pairwise distinct — so two raw items sharing a
final URL path segment (or both lacking url and title) break uniqueness. -/
theorem kommune_ids_unique_iff_bases (raws : List PyVal) (out : List Item)
    (h : kommuneLoop raws = .ok out) :
    ∃ bases : List String,
      List.Forall₂ (fun r b => ∃ fields, r = PyVal.obj fields ∧
        kommuneBaseId fields = .ok b) raws bases ∧
      out.map (·.id) =
        bases.map (fun b => PyVal.str ("fauske_kommune-" ++ b)) ∧
      ((out.map (·.id)).Nodup ↔ bases.Nodup) := by
  obtain ⟨bases, hb1, hb2⟩ := kommune_bases_exist (normLoop_forall₂ h)
  refine ⟨bases, hb1, hb2, ?_⟩
  rw [hb2]
  exact List.nodup_map_iff kommune_id_prefix_injective

theorem kommune_ids_unique_iff_bases_witness :
    ∃ bases : List String,
      List.Forall₂ (fun r b => ∃ fields, r = PyVal.obj fields ∧
        kommuneBaseId fields = .ok b) [PyVal.obj [("url", .str "https://s/a/b")]]
        bases ∧
      (([⟨.str "fauske_kommune-b", "fauske_kommune", "Fauske kommune",
          .null, .str "https://s/a/b", .null, .null, .null, .null, .null,
          .null, .obj [("url", .str "https://s/a/b")]⟩] : List Item).map
        (·.id)) =
        bases.map (fun b => PyVal.str ("fauske_kommune-" ++ b)) ∧
      ((([⟨.str "fauske_kommune-b", "fauske_kommune", "Fauske kommune",
          .null, .str "https://s/a/b", .null, .null, .null, .null, .null,
          .null, .obj [("url", .str "https://s/a/b")]⟩] : List Item).map
        (·.id)).Nodup ↔ bases.Nodup) :=
  kommune_ids_unique_iff_bases [PyVal.obj [("url", .str "https://s/a/b")]]
    [⟨.str "fauske_kommune-b", "fauske_kommune", "Fauske kommune",
      .null, .str "https://s/a/b", .null, .null, .null, .null, .null,
      .null, .obj [("url", .str "https://s/a/b")]⟩] (by rfl)

/-- **C5 (counterexample).** The kommune normalizer copies the raw
`published` value through verbatim: a raw item with
`published = "hello"` is emitted with `published = "hello"`, which is
neither null nor a valid ISO `YYYY-MM-DD` string. -/
theorem published_not_iso_cx :
    (load_kommune_items
        (some "\x7b\"items\": [\x7b\"title\": \"T\", \"published\": \"hello\"\x7d]\x7d")).map
        (fun l => l.map (·.published)) = .ok [.str "hello"] ∧
    PyVal.str "hello" ≠ PyVal.null ∧ ¬ IsIsoDateString "hello" := by
  refine ⟨by rfl, by decide, ?_⟩
  rintro ⟨y, m, d, _, _, _, _, _, _, heq⟩
  have h5 : ("hello" : String).data.length = 5 := rfl
  rw [heq] at h5
  rw [show (isoOfYMD y m d).data.length = 10 from rfl] at h5
  exact absurd h5 (by decide)

/-- **C5 (amended).** The næringsforum normalizer always emits `published`
as null or a valid ISO `YYYY-MM-DD` string; the kommune normalizer passes
the raw item's `published` value through unchanged, so its output is
ISO-or-null only when the raw input's value already is. -/
theorem published_iso_or_null_amended :
    (∀ raws out, nfLoop raws = .ok out → ∀ it ∈ out,
      it.published = .null ∨
        ∃ s, it.published = .str s ∧ IsIsoDateString s) ∧
    (∀ fields it, normOneKommune (.obj fields) = .ok it →
      it.published = pyGet fields "published") :=
  ⟨fun _ _ h => nf_published_iso_or_null h,
    fun _ _ h => kommune_published_passthrough h⟩

theorem published_iso_or_null_amended_witness :
    (⟨.str "b-1", "fauskenf", "Fauske Næringsforum", .str "Y", .null, .null,
      .str "2025-11-17", .str "17.11.2025", .null, .null, .null,
      .obj [("id", .str "b-1"), ("date", .str "17.11.2025"),
        ("title", .str "Y")]⟩ : Item).published = .null ∨
      ∃ s, (⟨.str "b-1", "fauskenf", "Fauske Næringsforum", .str "Y", .null,
        .null, .str "2025-11-17", .str "17.11.2025", .null, .null, .null,
        .obj [("id", .str "b-1"), ("date", .str "17.11.2025"),
          ("title", .str "Y")]⟩ : Item).published = .str s ∧
        IsIsoDateString s :=
  published_iso_or_null_amended.1
    [PyVal.obj [("id", .str "b-1"), ("date", .str "17.11.2025"),
      ("title", .str "Y")]]
    [⟨.str "b-1", "fauskenf", "Fauske Næringsforum", .str "Y", .null, .null,
      .str "2025-11-17", .str "17.11.2025", .null, .null, .null,
      .obj [("id", .str "b-1"), ("date", .str "17.11.2025"),
        ("title", .str "Y")]⟩]
    (by rfl) _ (List.mem_cons_self _ _)
